import Mathlib

/-!
# BOOPSIKit v0.1: tag apply helpers, changed masks and clamps

Shallow embedding of `Developer/Include/boopsikit/boopsi_kit.h`.

Conventions of the embedding:

* `ULONG` (32-bit unsigned) and `UWORD` (16-bit unsigned) values are natural
  numbers; a C cast `(ULONG)x` is `toULONG x = x % 2^32`, a cast `(UWORD)x` is
  `toUWORD x = x % 2^16`.  Theorems that need an argument to be a value of its
  C type say so with a hypothesis such as `field < 2^32`.
* A statement macro `do { ... } while(0)` that reads and writes the lvalue
  `field` and the header `*ih` becomes a function returning the pair
  `(field, ih)` after the statement.
* The destination `field` has the type named by the macro: `ULONG` for
  `BK_APPLY_ULONG`, `BK_APPLY_BOOL`, `BK_APPLY_ULONG_CLAMP` and `UWORD` for
  `BK_APPLY_UWORD`, `BK_APPLY_UWORD_CLAMP`, so the assignment stores the new
  value as it is.
* The `mask` argument and the `changed` member are `ULONG` values
  (`BK_CHG_*` are `UL` constants); theorems that state the stored record as
  `changed ||| mask` assume both below `2^32`.
-/

namespace BoopsiKit

/-! ## Machine integers -/

/-- The cast `(ULONG)x`: reduction modulo `2^32`. -/
def toULONG (x : Nat) : Nat := x % 2 ^ 32

/-- The cast `(UWORD)x`: reduction modulo `2^16`. -/
def toUWORD (x : Nat) : Nat := x % 2 ^ 16

/-- The operator `~x` on an `unsigned long` of 32 bits: `ULONG_MAX - x`. -/
def complULONG (x : Nat) : Nat := 2 ^ 32 - 1 - toULONG x

/-! ## Changed mask bits -/

def BK_CHG_NONE : Nat := 0
def BK_CHG_GEOM : Nat := 1 <<< 0
def BK_CHG_VIS : Nat := 1 <<< 1
def BK_CHG_COLOR : Nat := 1 <<< 2
def BK_CHG_VALUE : Nat := 1 <<< 3
def BK_CHG_ALL : Nat := 0xFFFFFFFF

/-! ## Instance header -/

/-- The header `struct BK_InstHeader { ULONG changed; ULONG flags; }`. -/
structure BK_InstHeader where
  changed : Nat
  flags : Nat
  deriving DecidableEq, Repr

/-! ## Tag lists -/

/-- One `struct TagItem { ULONG ti_Tag; ULONG ti_Data; }` of `utility/tagitem.h`. -/
structure TagItem where
  ti_Tag : Nat
  ti_Data : Nat
  deriving DecidableEq, Repr

/-- Modelled from the spec: `GetTagData()` of `utility/tagitem.h`, an operating
system primitive the header only calls.  "Given a list, an identifier, and a
default, return the identifier's associated value or the default if absent";
the list is an ordered sequence of (identifier, value) pairs and the first
entry with the identifier is the one found. -/
def GetTagData (tagValue defaultVal : Nat) : List TagItem → Nat
  | [] => defaultVal
  | t :: rest => if t.ti_Tag = tagValue then t.ti_Data else GetTagData tagValue defaultVal rest

/-! ## Small utilities -/

/-- The macro `BK_BOOLIFY(v) ((v) ? 1 : 0)`. -/
def BK_BOOLIFY (v : Nat) : Nat := if v ≠ 0 then 1 else 0

/-- The macro `BK_CLAMP_ULONG(v, lo, hi)`:
`(((v) < (lo)) ? (lo) : (((v) > (hi)) ? (hi) : (v)))`. -/
def BK_CLAMP_ULONG (v lo hi : Nat) : Nat :=
  if v < lo then lo else if v > hi then hi else v

/-- The macro `BK_CLAMP_UWORD(v, lo, hi)`:
`((UWORD)BK_CLAMP_ULONG((ULONG)(v), (ULONG)(lo), (ULONG)(hi)))`. -/
def BK_CLAMP_UWORD (v lo hi : Nat) : Nat :=
  toUWORD (BK_CLAMP_ULONG (toULONG v) (toULONG lo) (toULONG hi))

/-- The macro `BK_MARK_CHANGED(ih, mask)`: `(ih)->changed |= (mask);`, the
result stored in the `ULONG` member. -/
def BK_MARK_CHANGED (ih : BK_InstHeader) (mask : Nat) : BK_InstHeader :=
  { ih with changed := toULONG (ih.changed ||| mask) }

/-- The macro `BK_CLEAR_CHANGED(ih, mask)`: `(ih)->changed &= ~(mask);`. -/
def BK_CLEAR_CHANGED (ih : BK_InstHeader) (mask : Nat) : BK_InstHeader :=
  { ih with changed := toULONG (ih.changed &&& complULONG mask) }

/-! ## Tag apply helpers -/

def BK_TAG_ABSENT : Nat := 0xFFFFFFFF

/-- The macro `BK_APPLY_ULONG(taglist, tagid, field, ih, mask)`. -/
def BK_APPLY_ULONG (taglist : List TagItem) (tagid field : Nat) (ih : BK_InstHeader)
    (mask : Nat) : Nat × BK_InstHeader :=
  let _bk_v := toULONG (GetTagData tagid (toULONG BK_TAG_ABSENT) taglist)
  if _bk_v ≠ toULONG BK_TAG_ABSENT then
    if toULONG field ≠ _bk_v then
      (_bk_v, BK_MARK_CHANGED ih mask)
    else (field, ih)
  else (field, ih)

/-- The macro `BK_APPLY_UWORD(taglist, tagid, field, ih, mask)`. -/
def BK_APPLY_UWORD (taglist : List TagItem) (tagid field : Nat) (ih : BK_InstHeader)
    (mask : Nat) : Nat × BK_InstHeader :=
  let _bk_v := toULONG (GetTagData tagid (toULONG BK_TAG_ABSENT) taglist)
  if _bk_v ≠ toULONG BK_TAG_ABSENT then
    let _bk_nv := toUWORD _bk_v
    if toUWORD field ≠ _bk_nv then
      (_bk_nv, BK_MARK_CHANGED ih mask)
    else (field, ih)
  else (field, ih)

/-- The macro `BK_APPLY_BOOL(taglist, tagid, field, ih, mask)`. -/
def BK_APPLY_BOOL (taglist : List TagItem) (tagid field : Nat) (ih : BK_InstHeader)
    (mask : Nat) : Nat × BK_InstHeader :=
  let _bk_v := toULONG (GetTagData tagid (toULONG BK_TAG_ABSENT) taglist)
  if _bk_v ≠ toULONG BK_TAG_ABSENT then
    let _bk_nb := toULONG (BK_BOOLIFY _bk_v)
    if toULONG (BK_BOOLIFY field) ≠ _bk_nb then
      (toULONG _bk_nb, BK_MARK_CHANGED ih mask)
    else (field, ih)
  else (field, ih)

/-- The macro `BK_APPLY_ULONG_CLAMP(taglist, tagid, field, lo, hi, ih, mask)`. -/
def BK_APPLY_ULONG_CLAMP (taglist : List TagItem) (tagid field lo hi : Nat)
    (ih : BK_InstHeader) (mask : Nat) : Nat × BK_InstHeader :=
  let _bk_v := toULONG (GetTagData tagid (toULONG BK_TAG_ABSENT) taglist)
  if _bk_v ≠ toULONG BK_TAG_ABSENT then
    let _bk_nv := BK_CLAMP_ULONG _bk_v (toULONG lo) (toULONG hi)
    if toULONG field ≠ _bk_nv then
      (_bk_nv, BK_MARK_CHANGED ih mask)
    else (field, ih)
  else (field, ih)

/-- The macro `BK_APPLY_UWORD_CLAMP(taglist, tagid, field, lo, hi, ih, mask)`. -/
def BK_APPLY_UWORD_CLAMP (taglist : List TagItem) (tagid field lo hi : Nat)
    (ih : BK_InstHeader) (mask : Nat) : Nat × BK_InstHeader :=
  let _bk_v := toULONG (GetTagData tagid (toULONG BK_TAG_ABSENT) taglist)
  if _bk_v ≠ toULONG BK_TAG_ABSENT then
    let _bk_nv := toUWORD (BK_CLAMP_ULONG _bk_v (toULONG lo) (toULONG hi))
    if toUWORD field ≠ _bk_nv then
      (_bk_nv, BK_MARK_CHANGED ih mask)
    else (field, ih)
  else (field, ih)

/-- The value an applier reads from the tag list:
`(ULONG)GetTagData((tagid), (ULONG)BK_TAG_ABSENT, (taglist))`. -/
def lookupTag (taglist : List TagItem) (tagid : Nat) : Nat :=
  toULONG (GetTagData tagid (toULONG BK_TAG_ABSENT) taglist)

/-! ## Helper lemmas -/

theorem toULONG_lt (x : Nat) : toULONG x < 2 ^ 32 :=
  Nat.mod_lt _ (by decide)

theorem toUWORD_lt (x : Nat) : toUWORD x < 2 ^ 16 :=
  Nat.mod_lt _ (by decide)

theorem toULONG_of_lt {x : Nat} (h : x < 2 ^ 32) : toULONG x = x :=
  Nat.mod_eq_of_lt h

theorem toUWORD_of_lt {x : Nat} (h : x < 2 ^ 16) : toUWORD x = x :=
  Nat.mod_eq_of_lt h

theorem GetTagData_absent (tagid d : Nat) (taglist : List TagItem)
    (h : ∀ t ∈ taglist, t.ti_Tag ≠ tagid) : GetTagData tagid d taglist = d := by
  induction taglist with
  | nil => rfl
  | cons t rest ih =>
    have ht : t.ti_Tag ≠ tagid := h t (List.mem_cons_self _ _)
    have hrest : ∀ u ∈ rest, u.ti_Tag ≠ tagid := fun u hu => h u (List.mem_cons_of_mem _ hu)
    simp [GetTagData, ht, ih hrest]

theorem lookupTag_absent (tagid : Nat) (taglist : List TagItem)
    (h : ∀ t ∈ taglist, t.ti_Tag ≠ tagid) : lookupTag taglist tagid = toULONG BK_TAG_ABSENT := by
  unfold lookupTag
  rw [GetTagData_absent tagid _ taglist h]
  rfl

theorem toULONG_BK_TAG_ABSENT : toULONG BK_TAG_ABSENT = BK_TAG_ABSENT := by decide

theorem toULONG_idem (x : Nat) : toULONG (toULONG x) = toULONG x :=
  toULONG_of_lt (toULONG_lt x)

theorem BK_BOOLIFY_le_one (v : Nat) : BK_BOOLIFY v ≤ 1 := by
  unfold BK_BOOLIFY
  split_ifs <;> omega

theorem BK_BOOLIFY_idem (v : Nat) : BK_BOOLIFY (BK_BOOLIFY v) = BK_BOOLIFY v := by
  unfold BK_BOOLIFY
  split_ifs <;> simp_all

theorem toULONG_BK_BOOLIFY (v : Nat) : toULONG (BK_BOOLIFY v) = BK_BOOLIFY v :=
  toULONG_of_lt (lt_of_le_of_lt (BK_BOOLIFY_le_one v) (by decide))

theorem BK_CLAMP_ULONG_lt {v lo hi n : Nat} (hv : v < n) (hlo : lo < n) (hhi : hi < n) :
    BK_CLAMP_ULONG v lo hi < n := by
  unfold BK_CLAMP_ULONG
  split_ifs <;> assumption

theorem BK_MARK_CHANGED_eq (ih : BK_InstHeader) (mask : Nat) (hc : ih.changed < 2 ^ 32)
    (hm : mask < 2 ^ 32) :
    BK_MARK_CHANGED ih mask = { ih with changed := ih.changed ||| mask } := by
  unfold BK_MARK_CHANGED
  rw [toULONG_of_lt (Nat.or_lt_two_pow hc hm)]

theorem ne_of_toULONG_ne {field x : Nat} (hx : x < 2 ^ 32) (h : toULONG field ≠ x) :
    x ≠ field := by
  intro e
  exact h (by rw [← e, toULONG_of_lt hx])

theorem ne_of_toUWORD_ne {field x : Nat} (hx : x < 2 ^ 16) (h : toUWORD field ≠ x) :
    x ≠ field := by
  intro e
  exact h (by rw [← e, toUWORD_of_lt hx])

/-- Every applier either returns its inputs or stores a value different from
the prior field and marks the header. -/
theorem BK_APPLY_ULONG_shape (taglist : List TagItem) (tagid field : Nat)
    (ih : BK_InstHeader) (mask : Nat) :
    BK_APPLY_ULONG taglist tagid field ih mask = (field, ih) ∨
    ∃ x, x ≠ field ∧ BK_APPLY_ULONG taglist tagid field ih mask = (x, BK_MARK_CHANGED ih mask) := by
  unfold BK_APPLY_ULONG
  simp only []
  split_ifs with h1 h2
  · exact Or.inr ⟨_, ne_of_toULONG_ne (toULONG_lt _) h2, rfl⟩
  · exact Or.inl rfl
  · exact Or.inl rfl

theorem BK_APPLY_UWORD_shape (taglist : List TagItem) (tagid field : Nat)
    (ih : BK_InstHeader) (mask : Nat) :
    BK_APPLY_UWORD taglist tagid field ih mask = (field, ih) ∨
    ∃ x, x ≠ field ∧ BK_APPLY_UWORD taglist tagid field ih mask = (x, BK_MARK_CHANGED ih mask) := by
  unfold BK_APPLY_UWORD
  simp only []
  split_ifs with h1 h2
  · exact Or.inr ⟨_, ne_of_toUWORD_ne (toUWORD_lt _) h2, rfl⟩
  · exact Or.inl rfl
  · exact Or.inl rfl

theorem BK_APPLY_BOOL_shape (taglist : List TagItem) (tagid field : Nat)
    (ih : BK_InstHeader) (mask : Nat) :
    BK_APPLY_BOOL taglist tagid field ih mask = (field, ih) ∨
    ∃ x, x ≠ field ∧ BK_APPLY_BOOL taglist tagid field ih mask = (x, BK_MARK_CHANGED ih mask) := by
  unfold BK_APPLY_BOOL
  simp only []
  split_ifs with h1 h2
  · refine Or.inr ⟨_, ?_, rfl⟩
    intro e
    apply h2
    simp only [← e, toULONG_idem, toULONG_BK_BOOLIFY, BK_BOOLIFY_idem]
  · exact Or.inl rfl
  · exact Or.inl rfl

theorem BK_APPLY_ULONG_CLAMP_shape (taglist : List TagItem) (tagid field lo hi : Nat)
    (ih : BK_InstHeader) (mask : Nat) :
    BK_APPLY_ULONG_CLAMP taglist tagid field lo hi ih mask = (field, ih) ∨
    ∃ x, x ≠ field ∧
      BK_APPLY_ULONG_CLAMP taglist tagid field lo hi ih mask = (x, BK_MARK_CHANGED ih mask) := by
  unfold BK_APPLY_ULONG_CLAMP
  simp only []
  split_ifs with h1 h2
  · exact Or.inr ⟨_, ne_of_toULONG_ne
      (BK_CLAMP_ULONG_lt (toULONG_lt _) (toULONG_lt _) (toULONG_lt _)) h2, rfl⟩
  · exact Or.inl rfl
  · exact Or.inl rfl

theorem BK_APPLY_UWORD_CLAMP_shape (taglist : List TagItem) (tagid field lo hi : Nat)
    (ih : BK_InstHeader) (mask : Nat) :
    BK_APPLY_UWORD_CLAMP taglist tagid field lo hi ih mask = (field, ih) ∨
    ∃ x, x ≠ field ∧
      BK_APPLY_UWORD_CLAMP taglist tagid field lo hi ih mask = (x, BK_MARK_CHANGED ih mask) := by
  unfold BK_APPLY_UWORD_CLAMP
  simp only []
  split_ifs with h1 h2
  · exact Or.inr ⟨_, ne_of_toUWORD_ne (toUWORD_lt _) h2, rfl⟩
  · exact Or.inl rfl
  · exact Or.inl rfl

/-- The five shape lemmas as one statement over the list of the five results. -/
theorem apply_shape (taglist : List TagItem) (tagid field lo hi : Nat)
    (ih : BK_InstHeader) (mask : Nat) :
    ∀ r ∈ [BK_APPLY_ULONG taglist tagid field ih mask,
           BK_APPLY_UWORD taglist tagid field ih mask,
           BK_APPLY_BOOL taglist tagid field ih mask,
           BK_APPLY_ULONG_CLAMP taglist tagid field lo hi ih mask,
           BK_APPLY_UWORD_CLAMP taglist tagid field lo hi ih mask],
      r = (field, ih) ∨ ∃ x, x ≠ field ∧ r = (x, BK_MARK_CHANGED ih mask) := by
  intro r hr
  simp only [List.mem_cons, List.mem_singleton, List.not_mem_nil, or_false] at hr
  rcases hr with rfl | rfl | rfl | rfl | rfl
  · exact BK_APPLY_ULONG_shape taglist tagid field ih mask
  · exact BK_APPLY_UWORD_shape taglist tagid field ih mask
  · exact BK_APPLY_BOOL_shape taglist tagid field ih mask
  · exact BK_APPLY_ULONG_CLAMP_shape taglist tagid field lo hi ih mask
  · exact BK_APPLY_UWORD_CLAMP_shape taglist tagid field lo hi ih mask

theorem testBit_toULONG (x i : Nat) :
    (toULONG x).testBit i = (decide (i < 32) && x.testBit i) := by
  unfold toULONG
  exact Nat.testBit_mod_two_pow x 32 i

theorem testBit_complULONG (x i : Nat) :
    (complULONG x).testBit i = (decide (i < 32) && !x.testBit i) := by
  have h : complULONG x = 2 ^ 32 - (toULONG x + 1) := by
    unfold complULONG
    omega
  rw [h, Nat.testBit_two_pow_sub_succ (toULONG_lt x), testBit_toULONG]
  cases decide (i < 32) <;> simp

theorem testBit_of_lt_ULONG {c : Nat} (hc : c < 2 ^ 32) (i : Nat) :
    c.testBit i = (decide (i < 32) && c.testBit i) := by
  rw [← testBit_toULONG, toULONG_of_lt hc]

theorem testBit_BK_CLEAR_CHANGED (ih : BK_InstHeader) (mask : Nat)
    (hc : ih.changed < 2 ^ 32) (i : Nat) :
    (BK_CLEAR_CHANGED ih mask).changed.testBit i
      = (if mask.testBit i then false else ih.changed.testBit i) := by
  unfold BK_CLEAR_CHANGED
  simp only [testBit_toULONG, Nat.testBit_and, testBit_complULONG]
  rw [testBit_of_lt_ULONG hc i]
  cases decide (i < 32) <;> cases mask.testBit i <;> cases ih.changed.testBit i <;> rfl

theorem BK_CLAMP_ULONG_ge (v : Nat) {lo hi : Nat} (h : lo ≤ hi) : lo ≤ BK_CLAMP_ULONG v lo hi := by
  unfold BK_CLAMP_ULONG
  split_ifs <;> omega

theorem BK_CLAMP_ULONG_le (v : Nat) {lo hi : Nat} (h : lo ≤ hi) : BK_CLAMP_ULONG v lo hi ≤ hi := by
  unfold BK_CLAMP_ULONG
  split_ifs <;> omega

theorem BK_CLAMP_ULONG_of_mem {v lo hi : Nat} (h1 : lo ≤ v) (h2 : v ≤ hi) :
    BK_CLAMP_ULONG v lo hi = v := by
  unfold BK_CLAMP_ULONG
  rw [if_neg (by omega), if_neg (by omega)]

/-! ## Claims -/

/-- C1: when the attribute list has no entry with the target identifier, each
of the five appliers returns the field and the header (hence the change
record) exactly as they were, for every prior field, header, mask and range. -/
theorem apply_absent_unchanged (taglist : List TagItem) (tagid field lo hi : Nat)
    (ih : BK_InstHeader) (mask : Nat) (h : ∀ t ∈ taglist, t.ti_Tag ≠ tagid) :
    BK_APPLY_ULONG taglist tagid field ih mask = (field, ih) ∧
    BK_APPLY_UWORD taglist tagid field ih mask = (field, ih) ∧
    BK_APPLY_BOOL taglist tagid field ih mask = (field, ih) ∧
    BK_APPLY_ULONG_CLAMP taglist tagid field lo hi ih mask = (field, ih) ∧
    BK_APPLY_UWORD_CLAMP taglist tagid field lo hi ih mask = (field, ih) := by
  have hv := lookupTag_absent tagid taglist h
  unfold lookupTag at hv
  refine ⟨?_, ?_, ?_, ?_, ?_⟩
  · simp only [BK_APPLY_ULONG, hv, ne_eq, not_true_eq_false, if_false]
  · simp only [BK_APPLY_UWORD, hv, ne_eq, not_true_eq_false, if_false]
  · simp only [BK_APPLY_BOOL, hv, ne_eq, not_true_eq_false, if_false]
  · simp only [BK_APPLY_ULONG_CLAMP, hv, ne_eq, not_true_eq_false, if_false]
  · simp only [BK_APPLY_UWORD_CLAMP, hv, ne_eq, not_true_eq_false, if_false]

/-- C1 at a concrete input: the list holds identifiers 1 and 2, the target is 7. -/
theorem apply_absent_unchanged_witness :
    (∀ t ∈ [TagItem.mk 1 25, TagItem.mk 2 0], t.ti_Tag ≠ 7) ∧
    (BK_APPLY_ULONG [TagItem.mk 1 25, TagItem.mk 2 0] 7 10 ⟨4, 9⟩ 8 = (10, ⟨4, 9⟩) ∧
     BK_APPLY_UWORD [TagItem.mk 1 25, TagItem.mk 2 0] 7 10 ⟨4, 9⟩ 8 = (10, ⟨4, 9⟩) ∧
     BK_APPLY_BOOL [TagItem.mk 1 25, TagItem.mk 2 0] 7 10 ⟨4, 9⟩ 8 = (10, ⟨4, 9⟩) ∧
     BK_APPLY_ULONG_CLAMP [TagItem.mk 1 25, TagItem.mk 2 0] 7 10 0 20 ⟨4, 9⟩ 8 = (10, ⟨4, 9⟩) ∧
     BK_APPLY_UWORD_CLAMP [TagItem.mk 1 25, TagItem.mk 2 0] 7 10 0 20 ⟨4, 9⟩ 8 = (10, ⟨4, 9⟩)) :=
  ⟨by decide, apply_absent_unchanged _ 7 10 0 20 ⟨4, 9⟩ 8 (by decide)⟩

/-- C2: when the attribute is supplied (the lookup result `V` is not the
sentinel) and its transformed value equals the current field value on the
comparison basis of the variant, each of the five appliers returns the field
and the header unmodified, whatever the mask is. -/
theorem apply_equal_unchanged (taglist : List TagItem) (tagid field lo hi : Nat)
    (ih : BK_InstHeader) (mask V : Nat)
    (hV : lookupTag taglist tagid = V) (hne : V ≠ BK_TAG_ABSENT)
    (hlo : lo < 2 ^ 32) (hhi : hi < 2 ^ 32) :
    (V = field → BK_APPLY_ULONG taglist tagid field ih mask = (field, ih)) ∧
    (toUWORD V = field → BK_APPLY_UWORD taglist tagid field ih mask = (field, ih)) ∧
    (BK_BOOLIFY V = BK_BOOLIFY field →
      BK_APPLY_BOOL taglist tagid field ih mask = (field, ih)) ∧
    (BK_CLAMP_ULONG V lo hi = field →
      BK_APPLY_ULONG_CLAMP taglist tagid field lo hi ih mask = (field, ih)) ∧
    (toUWORD (BK_CLAMP_ULONG V lo hi) = field →
      BK_APPLY_UWORD_CLAMP taglist tagid field lo hi ih mask = (field, ih)) := by
  have hVlt : V < 2 ^ 32 := hV ▸ toULONG_lt _
  have hs : ¬ V = toULONG BK_TAG_ABSENT := by rw [toULONG_BK_TAG_ABSENT]; exact hne
  unfold lookupTag at hV
  refine ⟨?_, ?_, ?_, ?_, ?_⟩
  · intro h
    have hf : toULONG field = V := by rw [← h, toULONG_of_lt hVlt]
    simp [BK_APPLY_ULONG, hV, hs, hf]
  · intro h
    have hf : toUWORD field = toUWORD V := by rw [← h, toUWORD_of_lt (toUWORD_lt V)]
    simp [BK_APPLY_UWORD, hV, hs, hf]
  · intro h
    simp [BK_APPLY_BOOL, hV, hs, h]
  · intro h
    have hf : toULONG field = BK_CLAMP_ULONG V lo hi := by
      rw [← h, toULONG_of_lt (BK_CLAMP_ULONG_lt hVlt hlo hhi)]
    simp [BK_APPLY_ULONG_CLAMP, hV, hs, hf, toULONG_of_lt hlo, toULONG_of_lt hhi]
  · intro h
    have hf : toUWORD field = toUWORD (BK_CLAMP_ULONG V lo hi) := by
      rw [← h, toUWORD_of_lt (toUWORD_lt _)]
    simp [BK_APPLY_UWORD_CLAMP, hV, hs, hf, toULONG_of_lt hlo, toULONG_of_lt hhi]

/-- C2 at the scenario of the specification: field = 10, attribute present
with value 10 (clamp range [0, 20]). -/
theorem apply_equal_unchanged_witness :
    lookupTag [TagItem.mk 7 10] 7 = 10 ∧ 10 ≠ BK_TAG_ABSENT ∧
    BK_APPLY_ULONG [TagItem.mk 7 10] 7 10 ⟨4, 9⟩ 8 = (10, ⟨4, 9⟩) ∧
    BK_APPLY_UWORD [TagItem.mk 7 10] 7 10 ⟨4, 9⟩ 8 = (10, ⟨4, 9⟩) ∧
    BK_APPLY_BOOL [TagItem.mk 7 10] 7 10 ⟨4, 9⟩ 8 = (10, ⟨4, 9⟩) ∧
    BK_APPLY_ULONG_CLAMP [TagItem.mk 7 10] 7 10 0 20 ⟨4, 9⟩ 8 = (10, ⟨4, 9⟩) ∧
    BK_APPLY_UWORD_CLAMP [TagItem.mk 7 10] 7 10 0 20 ⟨4, 9⟩ 8 = (10, ⟨4, 9⟩) :=
  have h := apply_equal_unchanged [TagItem.mk 7 10] 7 10 0 20 ⟨4, 9⟩ 8 10
    (by decide) (by decide) (by decide) (by decide)
  ⟨by decide, by decide, h.1 (by decide), h.2.1 (by decide), h.2.2.1 (by decide),
    h.2.2.2.1 (by decide), h.2.2.2.2 (by decide)⟩

/-- C3: for the four non-boolean appliers, when the attribute is supplied (the
lookup result `V` is not the sentinel) and the candidate differs from the
current field value, the field becomes exactly the candidate and the change
record becomes (old record OR mask).  The candidate is `V`, `V mod 2^16`,
the 32-bit clamp of `V`, and the 32-bit clamp of `V` narrowed to 16 bits. -/
theorem apply_differs_assigns (taglist : List TagItem) (tagid field lo hi : Nat)
    (ih : BK_InstHeader) (mask V : Nat)
    (hV : lookupTag taglist tagid = V) (hne : V ≠ BK_TAG_ABSENT)
    (hc : ih.changed < 2 ^ 32) (hm : mask < 2 ^ 32)
    (hlo : lo < 2 ^ 32) (hhi : hi < 2 ^ 32) :
    (field < 2 ^ 32 → V ≠ field →
      BK_APPLY_ULONG taglist tagid field ih mask
        = (V, { ih with changed := ih.changed ||| mask })) ∧
    (field < 2 ^ 16 → V % 2 ^ 16 ≠ field →
      BK_APPLY_UWORD taglist tagid field ih mask
        = (V % 2 ^ 16, { ih with changed := ih.changed ||| mask })) ∧
    (field < 2 ^ 32 → BK_CLAMP_ULONG V lo hi ≠ field →
      BK_APPLY_ULONG_CLAMP taglist tagid field lo hi ih mask
        = (BK_CLAMP_ULONG V lo hi, { ih with changed := ih.changed ||| mask })) ∧
    (field < 2 ^ 16 → BK_CLAMP_ULONG V lo hi % 2 ^ 16 ≠ field →
      BK_APPLY_UWORD_CLAMP taglist tagid field lo hi ih mask
        = (BK_CLAMP_ULONG V lo hi % 2 ^ 16, { ih with changed := ih.changed ||| mask })) := by
  have hs : ¬ V = toULONG BK_TAG_ABSENT := by rw [toULONG_BK_TAG_ABSENT]; exact hne
  unfold lookupTag at hV
  have hmark := BK_MARK_CHANGED_eq ih mask hc hm
  refine ⟨?_, ?_, ?_, ?_⟩
  · intro hf h
    have h1 : ¬ toULONG field = V := by rw [toULONG_of_lt hf]; exact fun e => h e.symm
    simp only [BK_APPLY_ULONG, hV, ne_eq, hs, not_false_eq_true, if_true, h1, hmark]
  · intro hf h
    have h1 : ¬ toUWORD field = toUWORD V := by
      rw [toUWORD_of_lt hf]; exact fun e => h e.symm
    simp only [BK_APPLY_UWORD, hV, ne_eq, hs, not_false_eq_true, if_true, h1, hmark]
    rfl
  · intro hf h
    have h1 : ¬ toULONG field = BK_CLAMP_ULONG V lo hi := by
      rw [toULONG_of_lt hf]; exact fun e => h e.symm
    simp only [BK_APPLY_ULONG_CLAMP, hV, ne_eq, hs, not_false_eq_true, if_true, h1, hmark,
      toULONG_of_lt hlo, toULONG_of_lt hhi]
  · intro hf h
    have h1 : ¬ toUWORD field = toUWORD (BK_CLAMP_ULONG V lo hi) := by
      rw [toUWORD_of_lt hf]; exact fun e => h e.symm
    simp only [BK_APPLY_UWORD_CLAMP, hV, ne_eq, hs, not_false_eq_true, if_true, h1, hmark,
      toULONG_of_lt hlo, toULONG_of_lt hhi]
    rfl

/-- C3 at the scenario of the specification: field = 10, attribute present
with value 25, clamp range [0, 20]: the clamped appliers store 20, the plain
ones 25, and the mask 8 is OR'd into the record 4. -/
theorem apply_differs_assigns_witness :
    lookupTag [TagItem.mk 7 25] 7 = 25 ∧ 25 ≠ BK_TAG_ABSENT ∧
    BK_APPLY_ULONG [TagItem.mk 7 25] 7 10 ⟨4, 9⟩ 8 = (25, ⟨12, 9⟩) ∧
    BK_APPLY_UWORD [TagItem.mk 7 25] 7 10 ⟨4, 9⟩ 8 = (25, ⟨12, 9⟩) ∧
    BK_APPLY_ULONG_CLAMP [TagItem.mk 7 25] 7 10 0 20 ⟨4, 9⟩ 8 = (20, ⟨12, 9⟩) ∧
    BK_APPLY_UWORD_CLAMP [TagItem.mk 7 25] 7 10 0 20 ⟨4, 9⟩ 8 = (20, ⟨12, 9⟩) :=
  have h := apply_differs_assigns [TagItem.mk 7 25] 7 10 0 20 ⟨4, 9⟩ 8 25
    (by decide) (by decide) (by decide) (by decide) (by decide) (by decide)
  ⟨by decide, by decide, h.1 (by decide) (by decide), h.2.1 (by decide) (by decide),
    h.2.2.1 (by decide) (by decide), h.2.2.2 (by decide) (by decide)⟩

/-- C4: for `BK_APPLY_BOOL`, when the attribute is supplied (the lookup result
`V` is not the sentinel) and the normalized prior field differs from the
normalized `V`, the field becomes the normalized `V` and the change record
becomes (old record OR mask). -/
theorem apply_bool_differs_assigns (taglist : List TagItem) (tagid field : Nat)
    (ih : BK_InstHeader) (mask V : Nat)
    (hV : lookupTag taglist tagid = V) (hne : V ≠ BK_TAG_ABSENT)
    (hc : ih.changed < 2 ^ 32) (hm : mask < 2 ^ 32)
    (h : BK_BOOLIFY field ≠ BK_BOOLIFY V) :
    BK_APPLY_BOOL taglist tagid field ih mask
      = (BK_BOOLIFY V, { ih with changed := ih.changed ||| mask }) := by
  have hs : ¬ V = toULONG BK_TAG_ABSENT := by rw [toULONG_BK_TAG_ABSENT]; exact hne
  unfold lookupTag at hV
  simp only [BK_APPLY_BOOL, hV, ne_eq, hs, not_false_eq_true, if_true, toULONG_idem,
    toULONG_BK_BOOLIFY, h, BK_MARK_CHANGED_eq ih mask hc hm]

/-- C4 at the scenario of the specification: field = 0, attribute present with
value 5: the field becomes 1 and the mask 8 is OR'd into the record 4. -/
theorem apply_bool_differs_assigns_witness :
    lookupTag [TagItem.mk 7 5] 7 = 5 ∧ 5 ≠ BK_TAG_ABSENT ∧
    BK_BOOLIFY 0 ≠ BK_BOOLIFY 5 ∧
    BK_APPLY_BOOL [TagItem.mk 7 5] 7 0 ⟨4, 9⟩ 8 = (1, ⟨12, 9⟩) :=
  ⟨by decide, by decide, by decide,
    apply_bool_differs_assigns [TagItem.mk 7 5] 7 0 ⟨4, 9⟩ 8 5
      (by decide) (by decide) (by decide) (by decide) (by decide)⟩

/-- C5: change-mask monotonicity.  For each of the five appliers and every
input, every bit set in the prior change record is still set afterwards, and
the resulting record is either the prior record or (prior record OR mask). -/
theorem apply_changed_monotone (taglist : List TagItem) (tagid field lo hi : Nat)
    (ih : BK_InstHeader) (mask : Nat)
    (hc : ih.changed < 2 ^ 32) (hm : mask < 2 ^ 32) :
    ∀ r ∈ [BK_APPLY_ULONG taglist tagid field ih mask,
           BK_APPLY_UWORD taglist tagid field ih mask,
           BK_APPLY_BOOL taglist tagid field ih mask,
           BK_APPLY_ULONG_CLAMP taglist tagid field lo hi ih mask,
           BK_APPLY_UWORD_CLAMP taglist tagid field lo hi ih mask],
      (∀ i, ih.changed.testBit i = true → r.2.changed.testBit i = true) ∧
      (r.2.changed = ih.changed ∨ r.2.changed = ih.changed ||| mask) := by
  intro r hr
  rcases apply_shape taglist tagid field lo hi ih mask r hr with e | ⟨x, _, e⟩
  · subst e
    exact ⟨fun i hi => hi, Or.inl rfl⟩
  · subst e
    rw [BK_MARK_CHANGED_eq ih mask hc hm]
    refine ⟨fun i hi => ?_, Or.inr rfl⟩
    simp [Nat.testBit_or, hi]

/-- C5 at a concrete input: record 5, mask 12, attribute 25 applied to field 10
with range [0, 20]: bit 2 of the record stays set and the record becomes
5 OR 12 = 13. -/
theorem apply_changed_monotone_witness :
    (5 : Nat) < 2 ^ 32 ∧ (12 : Nat) < 2 ^ 32 ∧
    (BK_APPLY_ULONG_CLAMP [TagItem.mk 7 25] 7 10 0 20 ⟨5, 9⟩ 12).2.changed = 13 ∧
    (BK_APPLY_ULONG_CLAMP [TagItem.mk 7 25] 7 10 0 20 ⟨5, 9⟩ 12).2.changed.testBit 2 = true ∧
    ((BK_APPLY_ULONG_CLAMP [TagItem.mk 7 25] 7 10 0 20 ⟨5, 9⟩ 12).2.changed = 5 ∨
     (BK_APPLY_ULONG_CLAMP [TagItem.mk 7 25] 7 10 0 20 ⟨5, 9⟩ 12).2.changed = 5 ||| 12) :=
  have h := apply_changed_monotone [TagItem.mk 7 25] 7 10 0 20 ⟨5, 9⟩ 12 (by decide) (by decide)
    (BK_APPLY_ULONG_CLAMP [TagItem.mk 7 25] 7 10 0 20 ⟨5, 9⟩ 12) (by simp)
  ⟨by decide, by decide, by decide, h.1 2 (by decide), h.2⟩

/-- C6: change marking tracks actual field transitions exactly.  For each of
the five appliers and every input, the change record after the call is
(old record OR mask) if the field after the call differs from the field before
it, and is the old record if the field is the same. -/
theorem apply_changed_iff_field_changed (taglist : List TagItem) (tagid field lo hi : Nat)
    (ih : BK_InstHeader) (mask : Nat)
    (hc : ih.changed < 2 ^ 32) (hm : mask < 2 ^ 32) :
    ∀ r ∈ [BK_APPLY_ULONG taglist tagid field ih mask,
           BK_APPLY_UWORD taglist tagid field ih mask,
           BK_APPLY_BOOL taglist tagid field ih mask,
           BK_APPLY_ULONG_CLAMP taglist tagid field lo hi ih mask,
           BK_APPLY_UWORD_CLAMP taglist tagid field lo hi ih mask],
      r.2.changed = if r.1 ≠ field then ih.changed ||| mask else ih.changed := by
  intro r hr
  rcases apply_shape taglist tagid field lo hi ih mask r hr with e | ⟨x, hx, e⟩
  · subst e
    simp
  · subst e
    rw [BK_MARK_CHANGED_eq ih mask hc hm]
    simp [hx]

/-- C6 at a concrete input: record 5, mask 12, attribute 25 applied to field 25
with range [0, 20]: the plain applier finds the field equal and leaves the
record at 5, the clamped applier stores 20 and the record becomes 13. -/
theorem apply_changed_iff_field_changed_witness :
    (5 : Nat) < 2 ^ 32 ∧ (12 : Nat) < 2 ^ 32 ∧
    BK_APPLY_ULONG [TagItem.mk 7 25] 7 25 ⟨5, 9⟩ 12 = (25, ⟨5, 9⟩) ∧
    BK_APPLY_ULONG_CLAMP [TagItem.mk 7 25] 7 25 0 20 ⟨5, 9⟩ 12 = (20, ⟨13, 9⟩) ∧
    (BK_APPLY_ULONG [TagItem.mk 7 25] 7 25 ⟨5, 9⟩ 12).2.changed
      = (if (BK_APPLY_ULONG [TagItem.mk 7 25] 7 25 ⟨5, 9⟩ 12).1 ≠ 25 then 5 ||| 12 else 5) ∧
    (BK_APPLY_ULONG_CLAMP [TagItem.mk 7 25] 7 25 0 20 ⟨5, 9⟩ 12).2.changed
      = (if (BK_APPLY_ULONG_CLAMP [TagItem.mk 7 25] 7 25 0 20 ⟨5, 9⟩ 12).1 ≠ 25
          then 5 ||| 12 else 5) :=
  have h := apply_changed_iff_field_changed [TagItem.mk 7 25] 7 25 0 20 ⟨5, 9⟩ 12
    (by decide) (by decide)
  ⟨by decide, by decide, by decide, by decide, h _ (by simp), h _ (by simp)⟩

/-- C7: `BK_CLAMP_ULONG` range and idempotence.  For `lo ≤ hi` the result lies
in `[lo, hi]`, is `lo` when `v < lo`, `hi` when `v > hi`, `v` when
`lo ≤ v ≤ hi`, and clamping the result again returns it. -/
theorem BK_CLAMP_ULONG_range_idem (v lo hi : Nat) (h : lo ≤ hi) :
    lo ≤ BK_CLAMP_ULONG v lo hi ∧ BK_CLAMP_ULONG v lo hi ≤ hi ∧
    (v < lo → BK_CLAMP_ULONG v lo hi = lo) ∧
    (v > hi → BK_CLAMP_ULONG v lo hi = hi) ∧
    (lo ≤ v → v ≤ hi → BK_CLAMP_ULONG v lo hi = v) ∧
    BK_CLAMP_ULONG (BK_CLAMP_ULONG v lo hi) lo hi = BK_CLAMP_ULONG v lo hi := by
  refine ⟨BK_CLAMP_ULONG_ge v h, BK_CLAMP_ULONG_le v h, ?_, ?_, ?_,
    BK_CLAMP_ULONG_of_mem (BK_CLAMP_ULONG_ge v h) (BK_CLAMP_ULONG_le v h)⟩
  · intro h1
    unfold BK_CLAMP_ULONG
    rw [if_pos h1]
  · intro h1
    unfold BK_CLAMP_ULONG
    rw [if_neg (by omega), if_pos h1]
  · intro h1 h2
    exact BK_CLAMP_ULONG_of_mem h1 h2

/-- C7 at range [10, 20]: 5 is raised to 10, 25 is lowered to 20, 15 is kept. -/
theorem BK_CLAMP_ULONG_range_idem_witness :
    (10 : Nat) ≤ 20 ∧
    BK_CLAMP_ULONG 5 10 20 = 10 ∧ BK_CLAMP_ULONG 25 10 20 = 20 ∧
    BK_CLAMP_ULONG 15 10 20 = 15 ∧
    BK_CLAMP_ULONG (BK_CLAMP_ULONG 25 10 20) 10 20 = BK_CLAMP_ULONG 25 10 20 :=
  ⟨by decide,
    (BK_CLAMP_ULONG_range_idem 5 10 20 (by decide)).2.2.1 (by decide),
    (BK_CLAMP_ULONG_range_idem 25 10 20 (by decide)).2.2.2.1 (by decide),
    (BK_CLAMP_ULONG_range_idem 15 10 20 (by decide)).2.2.2.2.1 (by decide) (by decide),
    (BK_CLAMP_ULONG_range_idem 25 10 20 (by decide)).2.2.2.2.2⟩

/-- C8 as stated fails: with the 32-bit bounds lo = 5 ≤ hi = 0x10003 and
v = 0x10002 the 32-bit clamp keeps 0x10002, the narrowing to 16 bits yields 2,
which is below lo, and clamping 2 again yields 5, not 2. -/
theorem BK_CLAMP_UWORD_wide_bounds_counterexample :
    (0x10002 : Nat) < 2 ^ 32 ∧ (5 : Nat) < 2 ^ 32 ∧ (0x10003 : Nat) < 2 ^ 32 ∧
    (5 : Nat) ≤ 0x10003 ∧
    BK_CLAMP_UWORD 0x10002 5 0x10003 = 2 ∧
    ¬ (5 ≤ BK_CLAMP_UWORD 0x10002 5 0x10003) ∧
    BK_CLAMP_UWORD (BK_CLAMP_UWORD 0x10002 5 0x10003) 5 0x10003 = 5 ∧
    BK_CLAMP_UWORD (BK_CLAMP_UWORD 0x10002 5 0x10003) 5 0x10003
      ≠ BK_CLAMP_UWORD 0x10002 5 0x10003 := by
  decide

/-- C8 amended: when the bounds are 16-bit values, `lo ≤ hi ≤ 0xFFFF`, then for
every `v` (cast to 32 bits by the macro) the result of `BK_CLAMP_UWORD` lies in
`[lo, hi]` and clamping it again returns it. -/
theorem BK_CLAMP_UWORD_range_idem (v lo hi : Nat) (h : lo ≤ hi) (hhi : hi ≤ 0xFFFF) :
    lo ≤ BK_CLAMP_UWORD v lo hi ∧ BK_CLAMP_UWORD v lo hi ≤ hi ∧
    BK_CLAMP_UWORD (BK_CLAMP_UWORD v lo hi) lo hi = BK_CLAMP_UWORD v lo hi := by
  have hlo32 : toULONG lo = lo := toULONG_of_lt (by omega)
  have hhi32 : toULONG hi = hi := toULONG_of_lt (by omega)
  have h1 := BK_CLAMP_ULONG_ge (toULONG v) h
  have h2 := BK_CLAMP_ULONG_le (toULONG v) h
  have h6 := BK_CLAMP_ULONG_of_mem h1 h2
  have hr : BK_CLAMP_UWORD v lo hi = BK_CLAMP_ULONG (toULONG v) lo hi := by
    unfold BK_CLAMP_UWORD
    rw [hlo32, hhi32, toUWORD_of_lt (by omega)]
  have hr32 : toULONG (BK_CLAMP_ULONG (toULONG v) lo hi) = BK_CLAMP_ULONG (toULONG v) lo hi :=
    toULONG_of_lt (by omega)
  refine ⟨hr ▸ h1, hr ▸ h2, ?_⟩
  rw [hr]
  unfold BK_CLAMP_UWORD
  rw [hlo32, hhi32, hr32, h6, toUWORD_of_lt (by omega)]

/-- C8 amended at a concrete input: v = 0x10002 with the 16-bit range [5, 0xFFFF]
is clamped on its 32-bit value to 0xFFFF. -/
theorem BK_CLAMP_UWORD_range_idem_witness :
    (5 : Nat) ≤ 0xFFFF ∧ (0xFFFF : Nat) ≤ 0xFFFF ∧
    BK_CLAMP_UWORD 0x10002 5 0xFFFF = 0xFFFF ∧
    5 ≤ BK_CLAMP_UWORD 0x10002 5 0xFFFF ∧ BK_CLAMP_UWORD 0x10002 5 0xFFFF ≤ 0xFFFF ∧
    BK_CLAMP_UWORD (BK_CLAMP_UWORD 0x10002 5 0xFFFF) 5 0xFFFF
      = BK_CLAMP_UWORD 0x10002 5 0xFFFF :=
  ⟨by decide, by decide, by decide,
    BK_CLAMP_UWORD_range_idem 0x10002 5 0xFFFF (by decide) (by decide)⟩

/-- C9: boolean normalization.  `BK_BOOLIFY V` is 0 if `V = 0` and 1 otherwise,
and normalizing twice is the same as normalizing once. -/
theorem BK_BOOLIFY_spec (V : Nat) :
    BK_BOOLIFY V = (if V = 0 then 0 else 1) ∧
    BK_BOOLIFY (BK_BOOLIFY V) = BK_BOOLIFY V := by
  refine ⟨?_, BK_BOOLIFY_idem V⟩
  unfold BK_BOOLIFY
  split_ifs <;> simp_all

/-- C10: mark/clear round trip on a 32-bit change record.  Marking mask `M`
then clearing mask `M` yields `c AND (NOT M)`: every bit outside `M` has its
prior value and every bit inside `M` is 0; clearing `M` alone also leaves
every bit of `M` at 0 (and the bits outside `M` as they were). -/
theorem mark_clear_round_trip (ih : BK_InstHeader) (M : Nat) (hc : ih.changed < 2 ^ 32) :
    (BK_CLEAR_CHANGED (BK_MARK_CHANGED ih M) M).changed = ih.changed &&& complULONG M ∧
    (∀ i, (BK_CLEAR_CHANGED (BK_MARK_CHANGED ih M) M).changed.testBit i
        = (if M.testBit i then false else ih.changed.testBit i)) ∧
    (∀ i, (BK_CLEAR_CHANGED ih M).changed.testBit i
        = (if M.testBit i then false else ih.changed.testBit i)) := by
  have hbits : ∀ i, (BK_CLEAR_CHANGED (BK_MARK_CHANGED ih M) M).changed.testBit i
      = (if M.testBit i then false else ih.changed.testBit i) := by
    intro i
    rw [testBit_BK_CLEAR_CHANGED _ _ (toULONG_lt _)]
    simp only [BK_MARK_CHANGED, testBit_toULONG, Nat.testBit_or]
    rw [testBit_of_lt_ULONG hc i]
    cases decide (i < 32) <;> cases M.testBit i <;> cases ih.changed.testBit i <;> rfl
  refine ⟨?_, hbits, testBit_BK_CLEAR_CHANGED ih M hc⟩
  apply Nat.eq_of_testBit_eq
  intro i
  rw [hbits i, Nat.testBit_and, testBit_complULONG, testBit_of_lt_ULONG hc i]
  cases decide (i < 32) <;> cases M.testBit i <;> cases ih.changed.testBit i <;> rfl

/-- C10 at a concrete input: record 0b0101, mask 0b1100: mark gives 0b1101,
clear gives 0b0001. -/
theorem mark_clear_round_trip_witness :
    (5 : Nat) < 2 ^ 32 ∧
    (BK_CLEAR_CHANGED (BK_MARK_CHANGED ⟨5, 9⟩ 12) 12).changed = 1 ∧
    (BK_CLEAR_CHANGED (BK_MARK_CHANGED ⟨5, 9⟩ 12) 12).changed = 5 &&& complULONG 12 :=
  ⟨by decide, by decide, (mark_clear_round_trip ⟨5, 9⟩ 12 (by decide)).1⟩

/-! ## Further helper lemmas -/

theorem toUWORD_idem (x : Nat) : toUWORD (toUWORD x) = toUWORD x :=
  toUWORD_of_lt (toUWORD_lt x)

theorem GetTagData_first (tagid d x : Nat) (pre post : List TagItem)
    (h : ∀ t ∈ pre, t.ti_Tag ≠ tagid) :
    GetTagData tagid d (pre ++ TagItem.mk tagid x :: post) = x := by
  induction pre with
  | nil => simp [GetTagData]
  | cons t rest ih =>
    have ht : t.ti_Tag ≠ tagid := h t (List.mem_cons_self _ _)
    have hrest : ∀ u ∈ rest, u.ti_Tag ≠ tagid := fun u hu => h u (List.mem_cons_of_mem _ hu)
    simp [GetTagData, ht, ih hrest]

theorem BK_MARK_CHANGED_flags (ih : BK_InstHeader) (mask : Nat) :
    (BK_MARK_CHANGED ih mask).flags = ih.flags := rfl

/-! ## Claims, continued -/

/-- C11: each applier is idempotent as a state transformer.  Running an applier
again on the field and header it returned, with the same list, identifier,
range and mask, returns that same field and header. -/
theorem apply_idempotent (taglist : List TagItem) (tagid field lo hi : Nat)
    (ih : BK_InstHeader) (mask : Nat) :
    BK_APPLY_ULONG taglist tagid (BK_APPLY_ULONG taglist tagid field ih mask).1
        (BK_APPLY_ULONG taglist tagid field ih mask).2 mask
      = BK_APPLY_ULONG taglist tagid field ih mask ∧
    BK_APPLY_UWORD taglist tagid (BK_APPLY_UWORD taglist tagid field ih mask).1
        (BK_APPLY_UWORD taglist tagid field ih mask).2 mask
      = BK_APPLY_UWORD taglist tagid field ih mask ∧
    BK_APPLY_BOOL taglist tagid (BK_APPLY_BOOL taglist tagid field ih mask).1
        (BK_APPLY_BOOL taglist tagid field ih mask).2 mask
      = BK_APPLY_BOOL taglist tagid field ih mask ∧
    BK_APPLY_ULONG_CLAMP taglist tagid (BK_APPLY_ULONG_CLAMP taglist tagid field lo hi ih mask).1
        lo hi (BK_APPLY_ULONG_CLAMP taglist tagid field lo hi ih mask).2 mask
      = BK_APPLY_ULONG_CLAMP taglist tagid field lo hi ih mask ∧
    BK_APPLY_UWORD_CLAMP taglist tagid (BK_APPLY_UWORD_CLAMP taglist tagid field lo hi ih mask).1
        lo hi (BK_APPLY_UWORD_CLAMP taglist tagid field lo hi ih mask).2 mask
      = BK_APPLY_UWORD_CLAMP taglist tagid field lo hi ih mask := by
  refine ⟨?_, ?_, ?_, ?_, ?_⟩
  · by_cases h : BK_APPLY_ULONG taglist tagid field ih mask = (field, ih)
    · rw [h]
      exact h
    · by_cases h1 : toULONG (GetTagData tagid (toULONG BK_TAG_ABSENT) taglist)
          = toULONG BK_TAG_ABSENT
      · exact absurd (by simp [BK_APPLY_ULONG, h1]) h
      · by_cases h2 : toULONG field = toULONG (GetTagData tagid (toULONG BK_TAG_ABSENT) taglist)
        · exact absurd (by simp [BK_APPLY_ULONG, h2]) h
        · have e : BK_APPLY_ULONG taglist tagid field ih mask
              = (toULONG (GetTagData tagid (toULONG BK_TAG_ABSENT) taglist),
                  BK_MARK_CHANGED ih mask) := by
            simp [BK_APPLY_ULONG, h1, h2]
          rw [e]
          simp [BK_APPLY_ULONG, toULONG_idem]
  · by_cases h : BK_APPLY_UWORD taglist tagid field ih mask = (field, ih)
    · rw [h]
      exact h
    · by_cases h1 : toULONG (GetTagData tagid (toULONG BK_TAG_ABSENT) taglist)
          = toULONG BK_TAG_ABSENT
      · exact absurd (by simp [BK_APPLY_UWORD, h1]) h
      · by_cases h2 : toUWORD field
            = toUWORD (toULONG (GetTagData tagid (toULONG BK_TAG_ABSENT) taglist))
        · exact absurd (by simp [BK_APPLY_UWORD, h2]) h
        · have e : BK_APPLY_UWORD taglist tagid field ih mask
              = (toUWORD (toULONG (GetTagData tagid (toULONG BK_TAG_ABSENT) taglist)),
                  BK_MARK_CHANGED ih mask) := by
            simp [BK_APPLY_UWORD, h1, h2]
          rw [e]
          simp [BK_APPLY_UWORD, toUWORD_idem]
  · by_cases h : BK_APPLY_BOOL taglist tagid field ih mask = (field, ih)
    · rw [h]
      exact h
    · by_cases h1 : toULONG (GetTagData tagid (toULONG BK_TAG_ABSENT) taglist)
          = toULONG BK_TAG_ABSENT
      · exact absurd (by simp [BK_APPLY_BOOL, h1]) h
      · by_cases h2 : toULONG (BK_BOOLIFY field)
            = toULONG (BK_BOOLIFY (toULONG (GetTagData tagid (toULONG BK_TAG_ABSENT) taglist)))
        · exact absurd (by simp [BK_APPLY_BOOL, h2]) h
        · have e : BK_APPLY_BOOL taglist tagid field ih mask
              = (toULONG (toULONG (BK_BOOLIFY
                    (toULONG (GetTagData tagid (toULONG BK_TAG_ABSENT) taglist)))),
                  BK_MARK_CHANGED ih mask) := by
            simp [BK_APPLY_BOOL, h1, h2]
          rw [e]
          simp [BK_APPLY_BOOL, toULONG_idem, toULONG_BK_BOOLIFY, BK_BOOLIFY_idem]
  · by_cases h : BK_APPLY_ULONG_CLAMP taglist tagid field lo hi ih mask = (field, ih)
    · rw [h]
      exact h
    · by_cases h1 : toULONG (GetTagData tagid (toULONG BK_TAG_ABSENT) taglist)
          = toULONG BK_TAG_ABSENT
      · exact absurd (by simp [BK_APPLY_ULONG_CLAMP, h1]) h
      · by_cases h2 : toULONG field
            = BK_CLAMP_ULONG (toULONG (GetTagData tagid (toULONG BK_TAG_ABSENT) taglist))
                (toULONG lo) (toULONG hi)
        · exact absurd (by simp [BK_APPLY_ULONG_CLAMP, h2]) h
        · have e : BK_APPLY_ULONG_CLAMP taglist tagid field lo hi ih mask
              = (BK_CLAMP_ULONG (toULONG (GetTagData tagid (toULONG BK_TAG_ABSENT) taglist))
                    (toULONG lo) (toULONG hi),
                  BK_MARK_CHANGED ih mask) := by
            simp [BK_APPLY_ULONG_CLAMP, h1, h2]
          rw [e]
          simp [BK_APPLY_ULONG_CLAMP,
            toULONG_of_lt (BK_CLAMP_ULONG_lt (toULONG_lt _) (toULONG_lt lo) (toULONG_lt hi))]
  · by_cases h : BK_APPLY_UWORD_CLAMP taglist tagid field lo hi ih mask = (field, ih)
    · rw [h]
      exact h
    · by_cases h1 : toULONG (GetTagData tagid (toULONG BK_TAG_ABSENT) taglist)
          = toULONG BK_TAG_ABSENT
      · exact absurd (by simp [BK_APPLY_UWORD_CLAMP, h1]) h
      · by_cases h2 : toUWORD field
            = toUWORD (BK_CLAMP_ULONG
                (toULONG (GetTagData tagid (toULONG BK_TAG_ABSENT) taglist))
                (toULONG lo) (toULONG hi))
        · exact absurd (by simp [BK_APPLY_UWORD_CLAMP, h2]) h
        · have e : BK_APPLY_UWORD_CLAMP taglist tagid field lo hi ih mask
              = (toUWORD (BK_CLAMP_ULONG
                    (toULONG (GetTagData tagid (toULONG BK_TAG_ABSENT) taglist))
                    (toULONG lo) (toULONG hi)),
                  BK_MARK_CHANGED ih mask) := by
            simp [BK_APPLY_UWORD_CLAMP, h1, h2]
          rw [e]
          simp [BK_APPLY_UWORD_CLAMP, toUWORD_idem]

/-- C12: the `flags` member of the instance header is never written.  After
each of the five appliers, after `BK_MARK_CHANGED` and after
`BK_CLEAR_CHANGED`, `flags` has the value it had before. -/
theorem flags_never_written (taglist : List TagItem) (tagid field lo hi : Nat)
    (ih : BK_InstHeader) (mask : Nat) :
    (BK_APPLY_ULONG taglist tagid field ih mask).2.flags = ih.flags ∧
    (BK_APPLY_UWORD taglist tagid field ih mask).2.flags = ih.flags ∧
    (BK_APPLY_BOOL taglist tagid field ih mask).2.flags = ih.flags ∧
    (BK_APPLY_ULONG_CLAMP taglist tagid field lo hi ih mask).2.flags = ih.flags ∧
    (BK_APPLY_UWORD_CLAMP taglist tagid field lo hi ih mask).2.flags = ih.flags ∧
    (BK_MARK_CHANGED ih mask).flags = ih.flags ∧
    (BK_CLEAR_CHANGED ih mask).flags = ih.flags := by
  have key : ∀ r : Nat × BK_InstHeader,
      (r = (field, ih) ∨ ∃ x, x ≠ field ∧ r = (x, BK_MARK_CHANGED ih mask)) →
      r.2.flags = ih.flags := by
    intro r hr
    rcases hr with e | ⟨x, _, e⟩
    · rw [e]
    · rw [e]
      exact BK_MARK_CHANGED_flags ih mask
  exact ⟨key _ (BK_APPLY_ULONG_shape taglist tagid field ih mask),
    key _ (BK_APPLY_UWORD_shape taglist tagid field ih mask),
    key _ (BK_APPLY_BOOL_shape taglist tagid field ih mask),
    key _ (BK_APPLY_ULONG_CLAMP_shape taglist tagid field lo hi ih mask),
    key _ (BK_APPLY_UWORD_CLAMP_shape taglist tagid field lo hi ih mask),
    rfl, rfl⟩

/-- C13: sentinel collision.  When the first entry of the list with the target
identifier holds the value 0xFFFFFFFF, each of the five appliers returns the
field and the header unchanged, which is also what it returns on any list
in which the identifier is absent. -/
theorem apply_sentinel_present (pre post absentList : List TagItem)
    (tagid field lo hi : Nat) (ih : BK_InstHeader) (mask : Nat)
    (hpre : ∀ t ∈ pre, t.ti_Tag ≠ tagid) (habs : ∀ t ∈ absentList, t.ti_Tag ≠ tagid) :
    (BK_APPLY_ULONG (pre ++ TagItem.mk tagid 0xFFFFFFFF :: post) tagid field ih mask
        = (field, ih) ∧
      BK_APPLY_ULONG (pre ++ TagItem.mk tagid 0xFFFFFFFF :: post) tagid field ih mask
        = BK_APPLY_ULONG absentList tagid field ih mask) ∧
    (BK_APPLY_UWORD (pre ++ TagItem.mk tagid 0xFFFFFFFF :: post) tagid field ih mask
        = (field, ih) ∧
      BK_APPLY_UWORD (pre ++ TagItem.mk tagid 0xFFFFFFFF :: post) tagid field ih mask
        = BK_APPLY_UWORD absentList tagid field ih mask) ∧
    (BK_APPLY_BOOL (pre ++ TagItem.mk tagid 0xFFFFFFFF :: post) tagid field ih mask
        = (field, ih) ∧
      BK_APPLY_BOOL (pre ++ TagItem.mk tagid 0xFFFFFFFF :: post) tagid field ih mask
        = BK_APPLY_BOOL absentList tagid field ih mask) ∧
    (BK_APPLY_ULONG_CLAMP (pre ++ TagItem.mk tagid 0xFFFFFFFF :: post) tagid field lo hi ih mask
        = (field, ih) ∧
      BK_APPLY_ULONG_CLAMP (pre ++ TagItem.mk tagid 0xFFFFFFFF :: post) tagid field lo hi ih mask
        = BK_APPLY_ULONG_CLAMP absentList tagid field lo hi ih mask) ∧
    (BK_APPLY_UWORD_CLAMP (pre ++ TagItem.mk tagid 0xFFFFFFFF :: post) tagid field lo hi ih mask
        = (field, ih) ∧
      BK_APPLY_UWORD_CLAMP (pre ++ TagItem.mk tagid 0xFFFFFFFF :: post) tagid field lo hi ih mask
        = BK_APPLY_UWORD_CLAMP absentList tagid field lo hi ih mask) := by
  have hp : toULONG (GetTagData tagid (toULONG BK_TAG_ABSENT)
      (pre ++ TagItem.mk tagid 0xFFFFFFFF :: post)) = toULONG BK_TAG_ABSENT := by
    rw [GetTagData_first tagid _ _ pre post hpre]
    rfl
  have ha := lookupTag_absent tagid absentList habs
  unfold lookupTag at ha
  refine ⟨?_, ?_, ?_, ?_, ?_⟩
  · simp only [BK_APPLY_ULONG, hp, ha, ne_eq, not_true_eq_false, if_false, and_self]
  · simp only [BK_APPLY_UWORD, hp, ha, ne_eq, not_true_eq_false, if_false, and_self]
  · simp only [BK_APPLY_BOOL, hp, ha, ne_eq, not_true_eq_false, if_false, and_self]
  · simp only [BK_APPLY_ULONG_CLAMP, hp, ha, ne_eq, not_true_eq_false, if_false, and_self]
  · simp only [BK_APPLY_UWORD_CLAMP, hp, ha, ne_eq, not_true_eq_false, if_false, and_self]

/-- C13 at a concrete input: the identifier 7 is present with value 0xFFFFFFFF
after an entry for identifier 1; a boolean field at 0 and a field at 10 with
clamp range [0, 20] are left as they are, as on the list without identifier 7. -/
theorem apply_sentinel_present_witness :
    (∀ t ∈ [TagItem.mk 1 25], t.ti_Tag ≠ 7) ∧
    (∀ t ∈ [TagItem.mk 1 25, TagItem.mk 2 0], t.ti_Tag ≠ 7) ∧
    BK_APPLY_BOOL ([TagItem.mk 1 25] ++ TagItem.mk 7 0xFFFFFFFF :: [TagItem.mk 2 0]) 7 0 ⟨4, 9⟩ 8
      = (0, ⟨4, 9⟩) ∧
    BK_APPLY_ULONG_CLAMP ([TagItem.mk 1 25] ++ TagItem.mk 7 0xFFFFFFFF :: [TagItem.mk 2 0])
        7 10 0 20 ⟨4, 9⟩ 8
      = BK_APPLY_ULONG_CLAMP [TagItem.mk 1 25, TagItem.mk 2 0] 7 10 0 20 ⟨4, 9⟩ 8 :=
  have h := apply_sentinel_present [TagItem.mk 1 25] [TagItem.mk 2 0]
    [TagItem.mk 1 25, TagItem.mk 2 0] 7 10 0 20 ⟨4, 9⟩ 8 (by decide) (by decide)
  have hb := apply_sentinel_present [TagItem.mk 1 25] [TagItem.mk 2 0]
    [TagItem.mk 1 25, TagItem.mk 2 0] 7 0 0 20 ⟨4, 9⟩ 8 (by decide) (by decide)
  ⟨by decide, by decide, hb.2.2.1.1, h.2.2.2.1.2⟩

/-- C14 as stated fails for the clamped applier: with lo = hi = 0xFFFFFFFF
(so lo ≤ hi), a supplied value 5 and a prior field 0, the clamp raises 5 to
lo and the field becomes 0xFFFFFFFF. -/
theorem sentinel_assigned_by_clamp_counterexample :
    (0xFFFFFFFF : Nat) ≤ 0xFFFFFFFF ∧ (0 : Nat) ≠ 0xFFFFFFFF ∧
    lookupTag [TagItem.mk 7 5] 7 = 5 ∧
    BK_APPLY_ULONG_CLAMP [TagItem.mk 7 5] 7 0 0xFFFFFFFF 0xFFFFFFFF ⟨4, 9⟩ 8
      = (0xFFFFFFFF, ⟨12, 9⟩) ∧
    ¬ ((BK_APPLY_ULONG_CLAMP [TagItem.mk 7 5] 7 0 0xFFFFFFFF 0xFFFFFFFF ⟨4, 9⟩ 8).1
        ≠ 0xFFFFFFFF) := by
  decide

/-- C14 amended: for `BK_APPLY_ULONG`, and for `BK_APPLY_ULONG_CLAMP` with
32-bit bounds `lo ≤ hi` whose lower bound is not 0xFFFFFFFF, for every
attribute list and every prior field value other than 0xFFFFFFFF, the field
after the call is not 0xFFFFFFFF. -/
theorem sentinel_never_assigned (taglist : List TagItem) (tagid field lo hi : Nat)
    (ih : BK_InstHeader) (mask : Nat)
    (hf : field ≠ 0xFFFFFFFF) (hlohi : lo ≤ hi) (hhi : hi < 2 ^ 32) (hlo : lo ≠ 0xFFFFFFFF) :
    (BK_APPLY_ULONG taglist tagid field ih mask).1 ≠ 0xFFFFFFFF ∧
    (BK_APPLY_ULONG_CLAMP taglist tagid field lo hi ih mask).1 ≠ 0xFFFFFFFF := by
  have hv : toULONG (GetTagData tagid (toULONG BK_TAG_ABSENT) taglist) < 2 ^ 32 := toULONG_lt _
  have hs : toULONG BK_TAG_ABSENT = 0xFFFFFFFF := by decide
  constructor
  · unfold BK_APPLY_ULONG
    simp only []
    split_ifs with h1 h2
    · rw [hs] at h1
      exact h1
    · exact hf
    · exact hf
  · unfold BK_APPLY_ULONG_CLAMP
    simp only []
    split_ifs with h1 h2
    · have h1' : toULONG (GetTagData tagid (toULONG BK_TAG_ABSENT) taglist) ≠ 0xFFFFFFFF :=
        fun e => h1 (e.trans hs.symm)
      rw [toULONG_of_lt (lt_of_le_of_lt hlohi hhi), toULONG_of_lt hhi]
      show BK_CLAMP_ULONG _ lo hi ≠ 0xFFFFFFFF
      unfold BK_CLAMP_ULONG
      split_ifs <;> omega
    · exact hf
    · exact hf

/-- C14 amended at a concrete input: value 25, field 10, range [0, 20]. -/
theorem sentinel_never_assigned_witness :
    (10 : Nat) ≠ 0xFFFFFFFF ∧ (0 : Nat) ≤ 20 ∧ (20 : Nat) < 2 ^ 32 ∧ (0 : Nat) ≠ 0xFFFFFFFF ∧
    (BK_APPLY_ULONG [TagItem.mk 7 25] 7 10 ⟨4, 9⟩ 8).1 ≠ 0xFFFFFFFF ∧
    (BK_APPLY_ULONG_CLAMP [TagItem.mk 7 25] 7 10 0 20 ⟨4, 9⟩ 8).1 ≠ 0xFFFFFFFF :=
  ⟨by decide, by decide, by decide, by decide,
    sentinel_never_assigned [TagItem.mk 7 25] 7 10 0 20 ⟨4, 9⟩ 8
      (by decide) (by decide) (by decide) (by decide)⟩

/-- C15 as stated fails: with lo = 10 > hi = 5 and v = 7 (so v ≥ hi), the
first comparison `v < lo` holds and the macro yields lo = 10, not hi = 5. -/
theorem BK_CLAMP_ULONG_inverted_counterexample :
    (10 : Nat) > 5 ∧ (7 : Nat) ≥ 5 ∧
    BK_CLAMP_ULONG 7 10 5 = 10 ∧ BK_CLAMP_ULONG 7 10 5 ≠ 5 := by
  decide

/-- C15 amended: for `lo > hi`, `BK_CLAMP_ULONG v lo hi` is `lo` for every
`v < lo` and `hi` for every `v ≥ lo`. -/
theorem BK_CLAMP_ULONG_inverted (v lo hi : Nat) (h : lo > hi) :
    BK_CLAMP_ULONG v lo hi = if v < lo then lo else hi := by
  unfold BK_CLAMP_ULONG
  by_cases h1 : v < lo
  · rw [if_pos h1, if_pos h1]
  · rw [if_neg h1, if_neg h1, if_pos (by omega)]

/-- C15 amended at the range lo = 10, hi = 5: 7 and 3 yield lo, 10 and 12
yield hi. -/
theorem BK_CLAMP_ULONG_inverted_witness :
    (10 : Nat) > 5 ∧
    BK_CLAMP_ULONG 7 10 5 = (if 7 < 10 then 10 else 5) ∧
    BK_CLAMP_ULONG 3 10 5 = 10 ∧ BK_CLAMP_ULONG 10 10 5 = 5 ∧ BK_CLAMP_ULONG 12 10 5 = 5 :=
  ⟨by decide, BK_CLAMP_ULONG_inverted 7 10 5 (by decide), by decide, by decide, by decide⟩

/-- C16 as stated fails: with a prior field 5 (neither 0 nor 1) and a supplied
value 7, both normalize to 1, the comparison finds them equal and the field
stays 5, which is not `BK_BOOLIFY 7 = 1`. -/
theorem apply_bool_keeps_unnormalized_counterexample :
    lookupTag [TagItem.mk 7 7] 7 = 7 ∧ 7 ≠ BK_TAG_ABSENT ∧
    BK_APPLY_BOOL [TagItem.mk 7 7] 7 5 ⟨4, 9⟩ 8 = (5, ⟨4, 9⟩) ∧
    (BK_APPLY_BOOL [TagItem.mk 7 7] 7 5 ⟨4, 9⟩ 8).1 ≠ BK_BOOLIFY 7 ∧
    ¬ ((BK_APPLY_BOOL [TagItem.mk 7 7] 7 5 ⟨4, 9⟩ 8).1 = 0 ∨
       (BK_APPLY_BOOL [TagItem.mk 7 7] 7 5 ⟨4, 9⟩ 8).1 = 1) := by
  decide

/-- C16 amended: for every lookup result `V` other than the sentinel and every
prior field value, the normalized field after `BK_APPLY_BOOL` equals
`BK_BOOLIFY V`; and when the prior field is 0 or 1, or `V` is 0, the field
after the call equals `BK_BOOLIFY V` itself and is therefore 0 or 1. -/
theorem apply_bool_normalizes (taglist : List TagItem) (tagid field : Nat)
    (ih : BK_InstHeader) (mask V : Nat)
    (hV : lookupTag taglist tagid = V) (hne : V ≠ BK_TAG_ABSENT) :
    BK_BOOLIFY (BK_APPLY_BOOL taglist tagid field ih mask).1 = BK_BOOLIFY V ∧
    (field ≤ 1 ∨ V = 0 →
      (BK_APPLY_BOOL taglist tagid field ih mask).1 = BK_BOOLIFY V ∧
      (BK_APPLY_BOOL taglist tagid field ih mask).1 ≤ 1) := by
  have hs : ¬ V = toULONG BK_TAG_ABSENT := by rw [toULONG_BK_TAG_ABSENT]; exact hne
  unfold lookupTag at hV
  by_cases h : BK_BOOLIFY field = BK_BOOLIFY V
  · have e : BK_APPLY_BOOL taglist tagid field ih mask = (field, ih) := by
      simp [BK_APPLY_BOOL, hV, h]
    rw [e]
    refine ⟨h, fun hc => ?_⟩
    have hfield : field = BK_BOOLIFY V := by
      rcases hc with hc | hc
      · rw [← h]
        unfold BK_BOOLIFY
        split_ifs <;> omega
      · have h0 : BK_BOOLIFY 0 = 0 := rfl
        rw [hc, h0] at h ⊢
        unfold BK_BOOLIFY at h
        by_contra hne0
        rw [if_pos hne0] at h
        omega
    exact ⟨hfield, hfield ▸ BK_BOOLIFY_le_one V⟩
  · have e : BK_APPLY_BOOL taglist tagid field ih mask
        = (BK_BOOLIFY V, BK_MARK_CHANGED ih mask) := by
      simp only [BK_APPLY_BOOL, hV, ne_eq, hs, not_false_eq_true, if_true, toULONG_idem,
        toULONG_BK_BOOLIFY, h]
    rw [e]
    exact ⟨BK_BOOLIFY_idem V, fun _ => ⟨rfl, BK_BOOLIFY_le_one V⟩⟩

/-- C16 amended at concrete inputs: a prior field 5 with supplied value 0
becomes 0; a prior field 1 with supplied value 7 stays 1. -/
theorem apply_bool_normalizes_witness :
    lookupTag [TagItem.mk 7 0] 7 = 0 ∧ 0 ≠ BK_TAG_ABSENT ∧
    (BK_APPLY_BOOL [TagItem.mk 7 0] 7 5 ⟨4, 9⟩ 8).1 = BK_BOOLIFY 0 ∧
    (BK_APPLY_BOOL [TagItem.mk 7 0] 7 5 ⟨4, 9⟩ 8).1 ≤ 1 ∧
    (BK_APPLY_BOOL [TagItem.mk 7 7] 7 1 ⟨4, 9⟩ 8).1 = BK_BOOLIFY 7 :=
  have h := apply_bool_normalizes [TagItem.mk 7 0] 7 5 ⟨4, 9⟩ 8 0 (by decide) (by decide)
  have h1 := apply_bool_normalizes [TagItem.mk 7 7] 7 1 ⟨4, 9⟩ 8 7 (by decide) (by decide)
  ⟨by decide, by decide, (h.2 (Or.inr rfl)).1, (h.2 (Or.inr rfl)).2,
    (h1.2 (Or.inl (by decide))).1⟩

/-- C17: after a clamped apply with a supplied attribute the field is in range.
For `BK_APPLY_ULONG_CLAMP` with 32-bit bounds `lo ≤ hi` and a 32-bit field, and
for `BK_APPLY_UWORD_CLAMP` with `lo ≤ hi ≤ 0xFFFF` and a 16-bit field, for every
lookup result `V` other than the sentinel and every prior field value, the
field after the call equals the clamp of `V` and lies in `[lo, hi]`. -/
theorem apply_clamp_in_range (taglist : List TagItem) (tagid field lo hi : Nat)
    (ih : BK_InstHeader) (mask V : Nat)
    (hV : lookupTag taglist tagid = V) (hne : V ≠ BK_TAG_ABSENT) (hlohi : lo ≤ hi) :
    (hi < 2 ^ 32 → field < 2 ^ 32 →
      (BK_APPLY_ULONG_CLAMP taglist tagid field lo hi ih mask).1 = BK_CLAMP_ULONG V lo hi ∧
      lo ≤ (BK_APPLY_ULONG_CLAMP taglist tagid field lo hi ih mask).1 ∧
      (BK_APPLY_ULONG_CLAMP taglist tagid field lo hi ih mask).1 ≤ hi) ∧
    (hi ≤ 0xFFFF → field < 2 ^ 16 →
      (BK_APPLY_UWORD_CLAMP taglist tagid field lo hi ih mask).1 = BK_CLAMP_ULONG V lo hi ∧
      lo ≤ (BK_APPLY_UWORD_CLAMP taglist tagid field lo hi ih mask).1 ∧
      (BK_APPLY_UWORD_CLAMP taglist tagid field lo hi ih mask).1 ≤ hi) := by
  have hs : ¬ V = toULONG BK_TAG_ABSENT := by rw [toULONG_BK_TAG_ABSENT]; exact hne
  unfold lookupTag at hV
  have hge := BK_CLAMP_ULONG_ge V hlohi
  have hle := BK_CLAMP_ULONG_le V hlohi
  constructor
  · intro hhi hf
    have e : (BK_APPLY_ULONG_CLAMP taglist tagid field lo hi ih mask).1
        = BK_CLAMP_ULONG V lo hi := by
      simp only [BK_APPLY_ULONG_CLAMP, hV, ne_eq, hs, not_false_eq_true, if_true,
        toULONG_of_lt (lt_of_le_of_lt hlohi hhi), toULONG_of_lt hhi, toULONG_of_lt hf]
      split_ifs with h2
      · exact h2
      · rfl
    rw [e]
    exact ⟨rfl, hge, hle⟩
  · intro hhi hf
    have hhi32 : hi < 2 ^ 32 := by omega
    have hnarrow : toUWORD (BK_CLAMP_ULONG V lo hi) = BK_CLAMP_ULONG V lo hi :=
      toUWORD_of_lt (by omega)
    have e : (BK_APPLY_UWORD_CLAMP taglist tagid field lo hi ih mask).1
        = BK_CLAMP_ULONG V lo hi := by
      simp only [BK_APPLY_UWORD_CLAMP, hV, ne_eq, hs, not_false_eq_true, if_true,
        toULONG_of_lt (lt_of_le_of_lt hlohi hhi32), toULONG_of_lt hhi32, toUWORD_of_lt hf,
        hnarrow]
      split_ifs with h2
      · exact h2
      · rfl
    rw [e]
    exact ⟨rfl, hge, hle⟩

/-- C17 at a concrete input: value 25 with range [0, 20]; a prior field 30
(out of range) becomes 20 under both clamped appliers. -/
theorem apply_clamp_in_range_witness :
    lookupTag [TagItem.mk 7 25] 7 = 25 ∧ 25 ≠ BK_TAG_ABSENT ∧ (0 : Nat) ≤ 20 ∧
    ((BK_APPLY_ULONG_CLAMP [TagItem.mk 7 25] 7 30 0 20 ⟨4, 9⟩ 8).1 = BK_CLAMP_ULONG 25 0 20 ∧
      0 ≤ (BK_APPLY_ULONG_CLAMP [TagItem.mk 7 25] 7 30 0 20 ⟨4, 9⟩ 8).1 ∧
      (BK_APPLY_ULONG_CLAMP [TagItem.mk 7 25] 7 30 0 20 ⟨4, 9⟩ 8).1 ≤ 20) ∧
    ((BK_APPLY_UWORD_CLAMP [TagItem.mk 7 25] 7 30 0 20 ⟨4, 9⟩ 8).1 = BK_CLAMP_ULONG 25 0 20 ∧
      0 ≤ (BK_APPLY_UWORD_CLAMP [TagItem.mk 7 25] 7 30 0 20 ⟨4, 9⟩ 8).1 ∧
      (BK_APPLY_UWORD_CLAMP [TagItem.mk 7 25] 7 30 0 20 ⟨4, 9⟩ 8).1 ≤ 20) :=
  have h := apply_clamp_in_range [TagItem.mk 7 25] 7 30 0 20 ⟨4, 9⟩ 8 25
    (by decide) (by decide) (by decide)
  ⟨by decide, by decide, by decide, h.1 (by decide) (by decide), h.2 (by decide) (by decide)⟩

/-- C18: the plain 32-bit applier is the clamped one with the full range.
`BK_APPLY_ULONG_CLAMP` with lo = 0 and hi = 0xFFFFFFFF returns exactly the
field and header that `BK_APPLY_ULONG` returns. -/
theorem apply_ulong_clamp_full_range (taglist : List TagItem) (tagid field : Nat)
    (ih : BK_InstHeader) (mask : Nat) :
    BK_APPLY_ULONG_CLAMP taglist tagid field 0 0xFFFFFFFF ih mask
      = BK_APPLY_ULONG taglist tagid field ih mask := by
  have hv : toULONG (GetTagData tagid (toULONG BK_TAG_ABSENT) taglist) < 2 ^ 32 := toULONG_lt _
  have h0 : toULONG 0 = 0 := rfl
  have hmax : toULONG 0xFFFFFFFF = 0xFFFFFFFF := by decide
  have hc : BK_CLAMP_ULONG (toULONG (GetTagData tagid (toULONG BK_TAG_ABSENT) taglist))
      0 0xFFFFFFFF = toULONG (GetTagData tagid (toULONG BK_TAG_ABSENT) taglist) :=
    BK_CLAMP_ULONG_of_mem (Nat.zero_le _) (by omega)
  unfold BK_APPLY_ULONG_CLAMP BK_APPLY_ULONG
  simp only [h0, hmax, hc]

/-- C19: `BK_APPLY_UWORD` sees only the low 16 bits of the supplied value.  Two
lookup results other than the sentinel that are congruent modulo 2^16 give the
same field and header; and the value 0x0000FFFF is applied like any other: a
16-bit field different from 0xFFFF becomes 0xFFFF and the header is marked. -/
theorem apply_uword_low_bits (taglist1 taglist2 : List TagItem) (tagid1 tagid2 field : Nat)
    (ih : BK_InstHeader) (mask V1 V2 : Nat)
    (hV1 : lookupTag taglist1 tagid1 = V1) (hV2 : lookupTag taglist2 tagid2 = V2)
    (hne1 : V1 ≠ BK_TAG_ABSENT) (hne2 : V2 ≠ BK_TAG_ABSENT)
    (hcong : V1 % 2 ^ 16 = V2 % 2 ^ 16) :
    BK_APPLY_UWORD taglist1 tagid1 field ih mask
      = BK_APPLY_UWORD taglist2 tagid2 field ih mask ∧
    (V1 = 0xFFFF → field < 2 ^ 16 → field ≠ 0xFFFF →
      BK_APPLY_UWORD taglist1 tagid1 field ih mask = (0xFFFF, BK_MARK_CHANGED ih mask)) := by
  have hs1 : ¬ V1 = toULONG BK_TAG_ABSENT := by rw [toULONG_BK_TAG_ABSENT]; exact hne1
  have hs2 : ¬ V2 = toULONG BK_TAG_ABSENT := by rw [toULONG_BK_TAG_ABSENT]; exact hne2
  have hw : toUWORD V1 = toUWORD V2 := hcong
  unfold lookupTag at hV1 hV2
  constructor
  · simp only [BK_APPLY_UWORD, hV1, hV2, ne_eq, hs1, hs2, not_false_eq_true, if_true, hw]
  · intro h1 hf hfne
    have hcand : toUWORD V1 = 0xFFFF := by rw [h1]; decide
    have hcmp : ¬ toUWORD field = 0xFFFF := by rw [toUWORD_of_lt hf]; exact hfne
    simp only [BK_APPLY_UWORD, hV1, ne_eq, hs1, not_false_eq_true, if_true, hcand, hcmp]

/-- C19 at a concrete input: 0x0000FFFF and 0x0001FFFF agree modulo 2^16; both
set a field 3 to 0xFFFF and mark the header. -/
theorem apply_uword_low_bits_witness :
    lookupTag [TagItem.mk 7 0xFFFF] 7 = 0xFFFF ∧ lookupTag [TagItem.mk 8 0x1FFFF] 8 = 0x1FFFF ∧
    0xFFFF ≠ BK_TAG_ABSENT ∧ 0x1FFFF ≠ BK_TAG_ABSENT ∧
    0xFFFF % 2 ^ 16 = 0x1FFFF % 2 ^ 16 ∧
    BK_APPLY_UWORD [TagItem.mk 7 0xFFFF] 7 3 ⟨4, 9⟩ 8
      = BK_APPLY_UWORD [TagItem.mk 8 0x1FFFF] 8 3 ⟨4, 9⟩ 8 ∧
    BK_APPLY_UWORD [TagItem.mk 7 0xFFFF] 7 3 ⟨4, 9⟩ 8 = (0xFFFF, BK_MARK_CHANGED ⟨4, 9⟩ 8) ∧
    BK_APPLY_UWORD [TagItem.mk 7 0xFFFF] 7 3 ⟨4, 9⟩ 8 = (0xFFFF, ⟨12, 9⟩) :=
  have h := apply_uword_low_bits [TagItem.mk 7 0xFFFF] [TagItem.mk 8 0x1FFFF] 7 8 3 ⟨4, 9⟩ 8
    0xFFFF 0x1FFFF (by decide) (by decide) (by decide) (by decide) (by decide)
  ⟨by decide, by decide, by decide, by decide, by decide, h.1,
    h.2 rfl (by decide) (by decide), by decide⟩

/-- C20: change-mask bit layout.  `BK_CHG_GEOM`, `BK_CHG_VIS`, `BK_CHG_COLOR`
and `BK_CHG_VALUE` are the single bits 0, 1, 2 and 3, pairwise disjoint with
union 0xF; none has a bit at position 16 or above; `BK_CHG_NONE` is 0;
`BK_CHG_ALL` contains each of them; and `BK_CLEAR_CHANGED` with `BK_CHG_ALL`
yields `BK_CHG_NONE` from any prior record. -/
theorem change_mask_layout :
    (BK_CHG_GEOM = 2 ^ 0 ∧ BK_CHG_VIS = 2 ^ 1 ∧ BK_CHG_COLOR = 2 ^ 2 ∧ BK_CHG_VALUE = 2 ^ 3) ∧
    (BK_CHG_GEOM &&& BK_CHG_VIS = 0 ∧ BK_CHG_GEOM &&& BK_CHG_COLOR = 0 ∧
      BK_CHG_GEOM &&& BK_CHG_VALUE = 0 ∧ BK_CHG_VIS &&& BK_CHG_COLOR = 0 ∧
      BK_CHG_VIS &&& BK_CHG_VALUE = 0 ∧ BK_CHG_COLOR &&& BK_CHG_VALUE = 0) ∧
    BK_CHG_GEOM ||| BK_CHG_VIS ||| BK_CHG_COLOR ||| BK_CHG_VALUE = 0xF ∧
    (∀ i, BK_CHG_GEOM.testBit (16 + i) = false ∧ BK_CHG_VIS.testBit (16 + i) = false ∧
      BK_CHG_COLOR.testBit (16 + i) = false ∧ BK_CHG_VALUE.testBit (16 + i) = false) ∧
    BK_CHG_NONE = 0 ∧
    (BK_CHG_GEOM &&& BK_CHG_ALL = BK_CHG_GEOM ∧ BK_CHG_VIS &&& BK_CHG_ALL = BK_CHG_VIS ∧
      BK_CHG_COLOR &&& BK_CHG_ALL = BK_CHG_COLOR ∧
      BK_CHG_VALUE &&& BK_CHG_ALL = BK_CHG_VALUE) ∧
    (∀ ih : BK_InstHeader, (BK_CLEAR_CHANGED ih BK_CHG_ALL).changed = BK_CHG_NONE) := by
  have hhigh : ∀ x i : Nat, x < 2 ^ 16 → x.testBit (16 + i) = false := by
    intro x i hx
    apply Nat.testBit_lt_two_pow
    calc x < 2 ^ 16 := hx
      _ ≤ 2 ^ (16 + i) := Nat.pow_le_pow_right (by decide) (Nat.le_add_right 16 i)
  refine ⟨by decide, by decide, by decide, ?_, rfl, by decide, ?_⟩
  · intro i
    exact ⟨hhigh _ i (by decide), hhigh _ i (by decide), hhigh _ i (by decide),
      hhigh _ i (by decide)⟩
  · intro ih
    have hcompl : complULONG BK_CHG_ALL = 0 := by decide
    unfold BK_CLEAR_CHANGED
    simp only [hcompl, Nat.and_zero]
    rfl

end BoopsiKit
